import Mathlib

/-
Shallow embedding of the pgBackRest HTTP client (common/io/http/client.c).

The client owns at most one TLS session and at most one in-flight response.
`httpClientRequest` runs a retry loop bounded by a single deadline: every
attempt either yields a parsed response or throws; a 5xx response is turned
into a thrown ServiceError; any thrown error force-closes the session
(`httpClientDone(this, true, false)`) and either retries (when the wait gate
still has time) or is rethrown.

Modelling choices:
  * Process-wide mutable state (the statistics struct `httpClientStatLocal`,
    the pool of TLS session identities, the list of released sessions and the
    byte trace written to sessions) is threaded explicitly as a `World`.
  * The environment's behaviour during one loop iteration (TLS open failure,
    I/O failure while writing/reading, or a parsed response) is an `Attempt`;
    a whole execution is driven by a script `List (Attempt × Bool)` where the
    `Bool` is the answer `waitMore(wait)` would give were that attempt to fail.
  * C `ASSERT` failures are a distinct outcome (`assertFail` / `none`), and
    `String *` values that may be NULL are `Option String`.
-/

/-- Statistics counters (struct HttpClientStat, the process-local
`httpClientStatLocal`). -/
structure HttpClientStat where
  object : Nat := 0
  session : Nat := 0
  request : Nat := 0
  retry : Nat := 0
  close : Nat := 0
  deriving Repr, DecidableEq

/-- Process-wide state threaded through the embedding: the statistics, a
supply of fresh TLS session identities, the identities already released by
`tlsSessionFree`, and the bytes written to sessions so far. -/
structure World where
  stat : HttpClientStat := {}
  nextSession : Nat := 0
  freed : List Nat := []
  trace : String := ""
  deriving Repr, DecidableEq

/-- An HTTP response as this layer sees it: status code, reason phrase and
the busy flag (body not yet fully drained). -/
structure HttpResponse where
  code : Nat
  reason : String
  busy : Bool
  deriving Repr, DecidableEq

/-- An error value (errorType name and message), as thrown/caught by the C
error machinery. -/
structure Err where
  type : String
  message : String
  deriving Repr, DecidableEq

/-- struct HttpClient: configuration plus the transient session/response
references.  `callbackSet` models whether the finalize-on-teardown callback
(`memContextCallbackSet(this->memContext, httpClientFreeResource, this)`)
is currently registered. -/
structure HttpClient where
  host : Option String
  port : Nat
  timeout : Nat
  verifyPeer : Bool
  caFile : Option String
  caPath : Option String
  tlsSession : Option Nat := none
  response : Option HttpResponse := none
  callbackSet : Bool := false
  deriving Repr, DecidableEq

/-- An HTTP request as this layer consumes it: verb, encoded uri path, query
key/value pairs, optional header map (iteration-ordered key/value pairs) and
optional body content. -/
structure HttpRequest where
  verb : String
  uri : String
  query : List (String × String)
  header : Option (List (String × String))
  content : Option String
  deriving Repr, DecidableEq

/-- Modelled from the spec: `httpQueryRender` (common/io/http/common.c is not
part of this excerpt).  Renders the query to a string, absent (NULL) when the
query is empty, per the spec's "Query string, if present, is appended with
`?` only when non-empty". -/
def httpQueryRender (q : List (String × String)) : Option String :=
  if q.isEmpty then none
  else some (String.intercalate "&" (q.map fun kv => kv.1 ++ "=" ++ kv.2))

/-- Modelled from the spec: `httpHeaderList` yields the header keys in the
map's iteration order. -/
def httpHeaderList (hdr : List (String × String)) : List String :=
  hdr.map Prod.fst

/-- Modelled from the spec: `httpHeaderGet` looks a key up in the header
map. -/
def httpHeaderGet (hdr : List (String × String)) (key : String) : Option String :=
  (hdr.find? fun kv => kv.1 == key).map Prod.snd

/-- The exact bytes lines 144-176 of httpClientRequest write to the session:
request line (`%s %s%s%s HTTP/1.1\r` then the line feed `ioWriteStrLine`
appends), one `key:value\r` line per header key, the blank `\r` line ending
the headers, then the content if any.  The flush adds no bytes. -/
def httpClientWrite (req : HttpRequest) : String :=
  let queryStr := httpQueryRender req.query
  let requestLine :=
    req.verb ++ " " ++ req.uri
      ++ (match queryStr with | none => "" | some _ => "?")
      ++ (match queryStr with | none => "" | some q => q)
      ++ " HTTP/1.1\r" ++ "\n"
  let headerPart :=
    match req.header with
    | none => ""
    | some hdr =>
        String.join ((httpHeaderList hdr).map fun key =>
          key ++ ":" ++ ((httpHeaderGet hdr key).getD "") ++ "\r" ++ "\n")
  let contentPart := match req.content with | none => "" | some b => b
  requestLine ++ headerPart ++ "\r" ++ "\n" ++ contentPart

/-- The wire format exactly as the spec's words give it (section 6): request
line with `?query` only when the query is non-empty, each header pair as a
`Key:Value` line in map iteration order, a blank line, then the body.  Spec
side of the refinement for the wire-format claim. -/
def wireFormatSpec (req : HttpRequest) : String :=
  req.verb ++ " " ++ req.uri
    ++ (if req.query.isEmpty then "" else "?" ++ ((httpQueryRender req.query).getD ""))
    ++ " HTTP/1.1\r" ++ "\n"
  ++ String.join ((req.header.getD []).map fun kv => kv.1 ++ ":" ++ kv.2 ++ "\r" ++ "\n")
  ++ "\r" ++ "\n"
  ++ (req.content.getD "")

/-- The ServiceError thrown for a 5xx response:
`THROW_FMT(ServiceError, "[%u] %s", code, reason)`. -/
def serviceError (code : Nat) (reason : String) : Err :=
  { type := "ServiceError", message := "[" ++ toString code ++ "] " ++ reason }

/-- tlsSessionFree: releasing an absent (NULL) session is a no-op; releasing
a live one records its identity as released. -/
def tlsSessionFree (s : Option Nat) (w : World) : World :=
  match s with
  | none => w
  | some id => { w with freed := w.freed ++ [id] }

/-- Lines 134-142 of httpClientRequest: open a TLS session lazily when none
is active, recording the "session opened" statistic. -/
def sessionOpen (c : HttpClient) (w : World) : HttpClient × World :=
  match c.tlsSession with
  | some _ => (c, w)
  | none =>
      ({ c with tlsSession := some w.nextSession },
       { w with nextSession := w.nextSession + 1,
                stat := { w.stat with session := w.stat.session + 1 } })

/-- The body of httpClientDone (lines 257-269), below its assertions: when
`close`, free the TLS session and clear it, counting a forced close only when
`closeRequired`; always clear the teardown-callback registration and the
response back-reference. -/
def httpClientDoneRun (c : HttpClient) (w : World) (close closeRequired : Bool) :
    HttpClient × World :=
  if close then
    let wf := tlsSessionFree c.tlsSession w
    let wf2 :=
      if closeRequired then { wf with stat := { wf.stat with close := wf.stat.close + 1 } }
      else wf
    ({ c with tlsSession := none, response := none, callbackSet := false }, wf2)
  else
    ({ c with response := none, callbackSet := false }, w)

/-- httpClientDone with its contract `ASSERT(close || !closeRequired)`:
`none` is the assertion failure. -/
def httpClientDone (c : HttpClient) (w : World) (close closeRequired : Bool) :
    Option (HttpClient × World) :=
  if close || !closeRequired then some (httpClientDoneRun c w close closeRequired)
  else none

/-- httpClientBusy: does the client hold an undrained response? -/
def httpClientBusy (c : HttpClient) : Bool :=
  c.response.isSome

/-- What the environment does during one iteration of the retry loop:
`tlsClientOpen` throws, the write/read of the attempt throws after the
session is established, or `httpResponseNew` parses a response. -/
inductive Attempt where
  | openFail (e : Err)
  | readFail (e : Err)
  | resp (r : HttpResponse)
  deriving Repr, DecidableEq

/-- One iteration of the TRY block (lines 131-186): open the session lazily,
write the serialized request, then either fail or parse a response; a
response in the 5xx retry class (`code / 100 == HTTP_RESPONSE_CODE_RETRY_CLASS`)
is thrown as a ServiceError. -/
def requestAttempt (c : HttpClient) (w : World) (req : HttpRequest) (a : Attempt) :
    HttpClient × World × Except Err HttpResponse :=
  match a with
  | .openFail e => (c, w, .error e)
  | .readFail e =>
      let co := (sessionOpen c w).1
      let wo := (sessionOpen c w).2
      (co, { wo with trace := wo.trace ++ httpClientWrite req }, .error e)
  | .resp r =>
      let co := (sessionOpen c w).1
      let wo0 := (sessionOpen c w).2
      let wo := { wo0 with trace := wo0.trace ++ httpClientWrite req }
      if r.code / 100 = 5 then (co, wo, .error (serviceError r.code r.reason))
      else (co, wo, .ok r)

/-- Outcome of a call to httpClientRequest: contract violation, successful
response, a propagated (rethrown) error, or the environment script ran out. -/
inductive ReqOutcome where
  | assertFail
  | scriptEnd
  | ok (c : HttpClient) (w : World) (r : HttpResponse)
  | err (c : HttpClient) (w : World) (e : Err)
  deriving Repr, DecidableEq

/-- The retry loop (lines 126-205): each failed attempt force-closes the
session via `httpClientDone(this, true, false)` and retries when
`waitMore(wait)` answers true, counting a retry; otherwise the error is
rethrown unchanged. -/
def requestLoop (req : HttpRequest) : HttpClient → World → List (Attempt × Bool) → ReqOutcome
  | _, _, [] => .scriptEnd
  | c, w, (a, more) :: rest =>
      match requestAttempt c w req a with
      | (c1, w1, .ok r) => .ok c1 w1 r
      | (c1, w1, .error e) =>
          let cd := (httpClientDoneRun c1 w1 true false).1
          let wd := (httpClientDoneRun c1 w1 true false).2
          if more then
            requestLoop req cd
              { wd with stat := { wd.stat with retry := wd.stat.retry + 1 } } rest
          else .err cd wd e

/-- httpClientRequest (lines 106-222): assert no response is outstanding, run
the retry loop, then on success count the request and, when the response is
still busy, retain the back-reference and register the teardown callback. -/
def httpClientRequest (c : HttpClient) (w : World) (req : HttpRequest)
    (script : List (Attempt × Bool)) : ReqOutcome :=
  if httpClientBusy c then .assertFail
  else
    match requestLoop req c w script with
    | .ok c1 w1 r =>
        let c2 := if r.busy then { c1 with response := some r, callbackSet := true } else c1
        .ok c2 { w1 with stat := { w1.stat with request := w1.stat.request + 1 } } r
    | out => out

/-- Outcome of httpClientNew: assertion failure or the fresh client plus the
updated world. -/
inductive NewOutcome where
  | assertFail
  | ok (c : HttpClient) (w : World)
  deriving Repr, DecidableEq

/-- httpClientNew (lines 70-103): `ASSERT(host != NULL)`, then build the
client (no session, no response) and count an object; no session is opened
and nothing is written, so construction performs no network I/O. -/
def httpClientNew (host : Option String) (port timeout : Nat) (verifyPeer : Bool)
    (caFile caPath : Option String) (w : World) : NewOutcome :=
  match host with
  | none => .assertFail
  | some h =>
      .ok
        { host := some h, port := port, timeout := timeout, verifyPeer := verifyPeer,
          caFile := caFile, caPath := caPath, tlsSession := none, response := none,
          callbackSet := false }
        { w with stat := { w.stat with object := w.stat.object + 1 } }

/-- httpClientStatStr (lines 225-242): absent until an object has been
counted, otherwise the formatted snapshot. -/
def httpClientStatStr (st : HttpClientStat) : Option String :=
  if st.object > 0 then
    some ("http statistics: objects " ++ toString st.object
      ++ ", sessions " ++ toString st.session
      ++ ", requests " ++ toString st.request
      ++ ", retries " ++ toString st.retry
      ++ ", closes " ++ toString st.close)
  else none

/-- The world before any client exists. -/
def initialWorld : World := {}

/-- Example client used by concrete witnesses. -/
def exClient : HttpClient :=
  { host := some "example.com", port := 443, timeout := 5000, verifyPeer := true,
    caFile := none, caPath := none }

/-- Example client holding an undrained response, used by concrete witnesses. -/
def exClientBusy : HttpClient :=
  { exClient with
    response := some { code := 200, reason := "OK", busy := true }, callbackSet := true }

/-- Example request used by concrete witnesses. -/
def exReq : HttpRequest :=
  { verb := "GET", uri := "/ping", query := [],
    header := some [("Host", "example.com"), ("Content-Length", "0")], content := none }

theorem sessionOpen_response (c : HttpClient) (w : World) :
    (sessionOpen c w).1.response = c.response := by
  cases h : c.tlsSession <;> simp [sessionOpen, h]

theorem sessionOpen_callbackSet (c : HttpClient) (w : World) :
    (sessionOpen c w).1.callbackSet = c.callbackSet := by
  cases h : c.tlsSession <;> simp [sessionOpen, h]

theorem sessionOpen_stat_close (c : HttpClient) (w : World) :
    (sessionOpen c w).2.stat.close = w.stat.close := by
  cases h : c.tlsSession <;> simp [sessionOpen, h]

theorem sessionOpen_stat_retry (c : HttpClient) (w : World) :
    (sessionOpen c w).2.stat.retry = w.stat.retry := by
  cases h : c.tlsSession <;> simp [sessionOpen, h]

theorem sessionOpen_stat_request (c : HttpClient) (w : World) :
    (sessionOpen c w).2.stat.request = w.stat.request := by
  cases h : c.tlsSession <;> simp [sessionOpen, h]

theorem requestAttempt_stat_close (c : HttpClient) (w : World) (req : HttpRequest)
    (a : Attempt) : (requestAttempt c w req a).2.1.stat.close = w.stat.close := by
  cases a with
  | openFail e => rfl
  | readFail e => simp [requestAttempt, sessionOpen_stat_close]
  | resp r =>
      by_cases h : r.code / 100 = 5 <;> simp [requestAttempt, h, sessionOpen_stat_close]

theorem doneRun_abort_stat (c : HttpClient) (w : World) :
    (httpClientDoneRun c w true false).2.stat = w.stat := by
  cases h : c.tlsSession <;> simp [httpClientDoneRun, tlsSessionFree, h]

theorem requestLoop_close_frame (req : HttpRequest) (script : List (Attempt × Bool)) :
    ∀ (c : HttpClient) (w : World),
    (∀ c1 w1 r, requestLoop req c w script = .ok c1 w1 r → w1.stat.close = w.stat.close)
    ∧ (∀ c1 w1 e, requestLoop req c w script = .err c1 w1 e → w1.stat.close = w.stat.close) := by
  induction script with
  | nil =>
      intro c w
      constructor
      · intro c1 w1 r h
        simp [requestLoop] at h
      · intro c1 w1 e h
        simp [requestLoop] at h
  | cons head rest ih =>
      obtain ⟨a, more⟩ := head
      intro c w
      have hattc := requestAttempt_stat_close c w req a
      rcases hra : requestAttempt c w req a with ⟨c1, w1, res⟩
      rw [hra] at hattc
      simp only at hattc
      cases res with
      | ok r =>
          constructor
          · intro c2 w2 r2 h
            simp only [requestLoop, hra] at h
            cases h
            exact hattc
          · intro c2 w2 e h
            simp only [requestLoop, hra] at h
            exact ReqOutcome.noConfusion h
      | error e =>
          have hdone := doneRun_abort_stat c1 w1
          cases hmore : more with
          | true =>
              constructor
              · intro c2 w2 r2 h
                simp only [requestLoop, hra, hmore, if_true] at h
                have := ((ih _ _).1 c2 w2 r2 h)
                simp only [this, hdone]
                exact hattc
              · intro c2 w2 e2 h
                simp only [requestLoop, hra, hmore, if_true] at h
                have := ((ih _ _).2 c2 w2 e2 h)
                simp only [this, hdone]
                exact hattc
          | false =>
              constructor
              · intro c2 w2 r2 h
                simp only [requestLoop, hra, hmore, Bool.false_eq_true, if_false] at h
                exact ReqOutcome.noConfusion h
              · intro c2 w2 e2 h
                simp only [requestLoop, hra, hmore, Bool.false_eq_true, if_false] at h
                cases h
                rw [hdone]
                exact hattc

/-- C10: httpClientDone with close = false (and closeRequired = false) leaves
the TLS session reference, the statistics (including the forced-close
counter) and the released-session record unchanged: only the response
back-reference and the teardown-callback registration are cleared. -/
theorem c10_done_no_close_frame (c : HttpClient) (w : World) :
    httpClientDone c w false false
      = some ({ c with response := none, callbackSet := false }, w)
    ∧ ({ c with response := none, callbackSet := false } : HttpClient).tlsSession
      = c.tlsSession := by
  constructor
  · simp [httpClientDone, httpClientDoneRun]
  · rfl

/-- C3: calling httpClientRequest while the client still holds an undrained
response (httpClientBusy) fails immediately as a contract violation, for any
environment script: it is never retried and no new request is issued. -/
theorem c3_busy_contract (c : HttpClient) (w : World) (req : HttpRequest)
    (script : List (Attempt × Bool)) (h : httpClientBusy c = true) :
    httpClientRequest c w req script = .assertFail := by
  simp [httpClientRequest, h]

theorem c3_witness :
    httpClientBusy exClientBusy = true
    ∧ httpClientRequest exClientBusy initialWorld exReq
        [(Attempt.resp { code := 200, reason := "OK", busy := false }, true)]
      = .assertFail :=
  ⟨rfl, c3_busy_contract exClientBusy initialWorld exReq
    [(Attempt.resp { code := 200, reason := "OK", busy := false }, true)] rfl⟩

theorem tlsSessionFree_stat (s : Option Nat) (w : World) :
    (tlsSessionFree s w).stat = w.stat := by
  cases s <;> rfl

theorem doneRun_stat_close (c : HttpClient) (w : World) (close closeRequired : Bool) :
    (httpClientDoneRun c w close closeRequired).2.stat.close
      = w.stat.close + (if close && closeRequired then 1 else 0) := by
  cases close <;> cases closeRequired <;>
    simp [httpClientDoneRun, tlsSessionFree_stat]

theorem done_some (c : HttpClient) (w : World) (close closeRequired : Bool)
    (p : HttpClient × World) (h : httpClientDone c w close closeRequired = some p) :
    httpClientDoneRun c w close closeRequired = p := by
  by_cases hc : (close || !closeRequired) = true
  · simp only [httpClientDone, if_pos hc] at h
    exact Option.some.inj h
  · simp only [httpClientDone, if_neg hc] at h
    exact Option.noConfusion h

theorem doneRun_response (c : HttpClient) (w : World) (close closeRequired : Bool) :
    (httpClientDoneRun c w close closeRequired).1.response = none := by
  cases close <;> simp [httpClientDoneRun]

theorem doneRun_callbackSet (c : HttpClient) (w : World) (close closeRequired : Bool) :
    (httpClientDoneRun c w close closeRequired).1.callbackSet = false := by
  cases close <;> simp [httpClientDoneRun]

/-- C4: closeRequired without close is an assertion failure; the forced-close
counter increments exactly when close and closeRequired are both true; and a
whole httpClientRequest call, whose error path always closes via
`httpClientDone(this, true, false)`, never changes the forced-close counter,
whether it returns a response or propagates an error. -/
theorem c4_forced_close_contract :
    (∀ c w, httpClientDone c w false true = none)
    ∧ (∀ c w close closeRequired p, httpClientDone c w close closeRequired = some p →
        p.2.stat.close = w.stat.close + (if close && closeRequired then 1 else 0))
    ∧ (∀ req script c w c1 w1 r,
        httpClientRequest c w req script = ReqOutcome.ok c1 w1 r →
        w1.stat.close = w.stat.close)
    ∧ (∀ req script c w c1 w1 e,
        httpClientRequest c w req script = ReqOutcome.err c1 w1 e →
        w1.stat.close = w.stat.close) := by
  refine ⟨fun c w => rfl, ?_, ?_, ?_⟩
  · intro c w close closeRequired p h
    have hp := done_some c w close closeRequired p h
    subst hp
    exact doneRun_stat_close c w close closeRequired
  · intro req script c w c1 w1 r h
    cases hb : httpClientBusy c with
    | true => simp [httpClientRequest, hb] at h
    | false =>
        rcases hloop : requestLoop req c w script with _ | _ | ⟨ca, wa, ra⟩ | ⟨ca, wa, ea⟩ <;>
          simp only [httpClientRequest, hb, Bool.false_eq_true, if_false, hloop] at h
        · exact ReqOutcome.noConfusion h
        · exact ReqOutcome.noConfusion h
        · injection h with h1 h2 h3
          subst h2
          exact (requestLoop_close_frame req script c w).1 ca wa ra hloop
        · exact ReqOutcome.noConfusion h
  · intro req script c w c1 w1 e h
    cases hb : httpClientBusy c with
    | true => simp [httpClientRequest, hb] at h
    | false =>
        rcases hloop : requestLoop req c w script with _ | _ | ⟨ca, wa, ra⟩ | ⟨ca, wa, ea⟩ <;>
          simp only [httpClientRequest, hb, Bool.false_eq_true, if_false, hloop] at h
        · exact ReqOutcome.noConfusion h
        · exact ReqOutcome.noConfusion h
        · exact ReqOutcome.noConfusion h
        · injection h with h1 h2 h3
          subst h2
          exact (requestLoop_close_frame req script c w).2 ca wa ea hloop

theorem c4_witness :
    ({ stat := { close := 1 } } : World).stat.close
      = initialWorld.stat.close + (if true && true then 1 else 0) :=
  c4_forced_close_contract.2.1 exClient initialWorld true true
    ({ exClient with tlsSession := none, response := none, callbackSet := false },
     { stat := { close := 1 } }) rfl

/-- C5: httpClientDone always clears the response back-reference and the
teardown-callback registration; when no session is active it is a no-op on
the session (the client is only cleared and nothing is released); and after
an error-path close a second error-path close changes nothing, so an
already-closed or absent session is never released twice. -/
theorem c5_done_clears_safe :
    (∀ c w close closeRequired p, httpClientDone c w close closeRequired = some p →
        p.1.response = none ∧ p.1.callbackSet = false)
    ∧ (∀ c w close closeRequired p, c.tlsSession = none →
        httpClientDone c w close closeRequired = some p →
        p.1 = { c with response := none, callbackSet := false } ∧ p.2.freed = w.freed)
    ∧ (∀ c w p, httpClientDone c w true false = some p →
        httpClientDone p.1 p.2 true false = some (p.1, p.2)) := by
  refine ⟨?_, ?_, ?_⟩
  · intro c w close closeRequired p h
    have hp := done_some c w close closeRequired p h
    subst hp
    exact ⟨doneRun_response c w close closeRequired, doneRun_callbackSet c w close closeRequired⟩
  · intro c w close closeRequired p hs h
    have hp := done_some c w close closeRequired p h
    subst hp
    obtain ⟨h1, h2, h3, h4, h5, h6, ts, resp, cb⟩ := c
    simp only at hs
    subst hs
    cases close <;> cases closeRequired <;> simp [httpClientDoneRun, tlsSessionFree]
  · intro c w p h
    have hp := done_some c w true false p h
    subst hp
    obtain ⟨h1, h2, h3, h4, h5, h6, ts, resp, cb⟩ := c
    simp [httpClientDone, httpClientDoneRun, tlsSessionFree]

theorem c5_witness :
    ({ exClient with response := none, callbackSet := false } : HttpClient).response = none
    ∧ ({ exClient with response := none, callbackSet := false } : HttpClient).callbackSet
      = false :=
  c5_done_clears_safe.1 exClientBusy initialWorld true false
    ({ exClient with response := none, callbackSet := false }, initialWorld) rfl

theorem requestAttempt_stat_retry (c : HttpClient) (w : World) (req : HttpRequest)
    (a : Attempt) : (requestAttempt c w req a).2.1.stat.retry = w.stat.retry := by
  cases a with
  | openFail e => rfl
  | readFail e => simp [requestAttempt, sessionOpen_stat_retry]
  | resp r =>
      by_cases h : r.code / 100 = 5 <;> simp [requestAttempt, h, sessionOpen_stat_retry]

theorem requestAttempt_resp_ok (c : HttpClient) (w : World) (req : HttpRequest)
    (r : HttpResponse) (h : ¬r.code / 100 = 5) :
    requestAttempt c w req (Attempt.resp r)
      = ((sessionOpen c w).1,
         { (sessionOpen c w).2 with
           trace := (sessionOpen c w).2.trace ++ httpClientWrite req },
         Except.ok r) := by
  simp [requestAttempt, h]

theorem requestAttempt_resp5 (c : HttpClient) (w : World) (req : HttpRequest)
    (r : HttpResponse) (h : r.code / 100 = 5) :
    requestAttempt c w req (Attempt.resp r)
      = ((sessionOpen c w).1,
         { (sessionOpen c w).2 with
           trace := (sessionOpen c w).2.trace ++ httpClientWrite req },
         Except.error (serviceError r.code r.reason)) := by
  simp [requestAttempt, h]

theorem requestLoop_ok_step (req : HttpRequest) (c c1 : HttpClient) (w w1 : World)
    (a : Attempt) (r : HttpResponse) (rest : List (Attempt × Bool)) (more : Bool)
    (h : requestAttempt c w req a = (c1, w1, Except.ok r)) :
    requestLoop req c w ((a, more) :: rest) = ReqOutcome.ok c1 w1 r := by
  simp only [requestLoop, h]

theorem requestLoop_error_step (req : HttpRequest) (c c1 : HttpClient) (w w1 : World)
    (a : Attempt) (e : Err) (rest : List (Attempt × Bool))
    (h : requestAttempt c w req a = (c1, w1, Except.error e)) :
    requestLoop req c w ((a, true) :: rest)
      = requestLoop req (httpClientDoneRun c1 w1 true false).1
          { (httpClientDoneRun c1 w1 true false).2 with
            stat := { (httpClientDoneRun c1 w1 true false).2.stat with
                      retry := (httpClientDoneRun c1 w1 true false).2.stat.retry + 1 } }
          rest := by
  simp only [requestLoop, h, if_true]

theorem requestLoop_error_last (req : HttpRequest) (c c1 : HttpClient) (w w1 : World)
    (a : Attempt) (e : Err) (rest : List (Attempt × Bool))
    (h : requestAttempt c w req a = (c1, w1, Except.error e)) :
    requestLoop req c w ((a, false) :: rest)
      = ReqOutcome.err (httpClientDoneRun c1 w1 true false).1
          (httpClientDoneRun c1 w1 true false).2 e := by
  simp only [requestLoop, h, Bool.false_eq_true, if_false]

theorem requestLoop_fail_run (req : HttpRequest) (rest : List (Attempt × Bool)) :
    ∀ (fails : List HttpResponse) (c : HttpClient) (w : World),
      (∀ r ∈ fails, r.code / 100 = 5) →
      ∃ c2 w2,
        requestLoop req c w ((fails.map fun r => (Attempt.resp r, true)) ++ rest)
          = requestLoop req c2 w2 rest
        ∧ w2.stat.retry = w.stat.retry + fails.length := by
  intro fails
  induction fails with
  | nil =>
      intro c w _
      exact ⟨c, w, rfl, by simp⟩
  | cons r t ih =>
      intro c w h5
      have hr : r.code / 100 = 5 := h5 r (List.mem_cons_self r t)
      have hatt := requestAttempt_resp5 c w req r hr
      have hstep := requestLoop_error_step req c (sessionOpen c w).1 w
        { (sessionOpen c w).2 with
          trace := (sessionOpen c w).2.trace ++ httpClientWrite req }
        (Attempt.resp r) (serviceError r.code r.reason)
        ((t.map fun x => (Attempt.resp x, true)) ++ rest) hatt
      obtain ⟨c2, w2, heq, hret⟩ := ih _ _ (fun x hx => h5 x (List.mem_cons_of_mem r hx))
      refine ⟨c2, w2, ?_, ?_⟩
      · calc requestLoop req c w (((r :: t).map fun x => (Attempt.resp x, true)) ++ rest)
            = requestLoop req _ _ ((t.map fun x => (Attempt.resp x, true)) ++ rest) := hstep
          _ = requestLoop req c2 w2 rest := heq
      · rw [hret]
        have h1 : (httpClientDoneRun (sessionOpen c w).1
            { (sessionOpen c w).2 with
              trace := (sessionOpen c w).2.trace ++ httpClientWrite req } true false).2.stat
            = ({ (sessionOpen c w).2 with
                 trace := (sessionOpen c w).2.trace ++ httpClientWrite req } : World).stat :=
          doneRun_abort_stat _ _
        simp only [h1]
        have h2 : (sessionOpen c w).2.stat.retry = w.stat.retry := sessionOpen_stat_retry c w
        simp only [List.length_cons]
        omega

/-- C1: when the first N attempts yield 5xx responses, the wait gate still
has time after each failure, and the next attempt yields a 2xx response,
httpClientRequest returns that final response and the process-wide retry
counter increases by exactly N. -/
theorem c1_retry_then_success (c : HttpClient) (w : World) (req : HttpRequest)
    (fails : List HttpResponse) (final : HttpResponse)
    (hfree : c.response = none)
    (h5 : ∀ r ∈ fails, r.code / 100 = 5)
    (h2 : final.code / 100 = 2) :
    ∃ c2 w2,
      httpClientRequest c w req
          ((fails.map fun r => (Attempt.resp r, true)) ++ [(Attempt.resp final, true)])
        = ReqOutcome.ok c2 w2 final
      ∧ w2.stat.retry = w.stat.retry + fails.length := by
  have hb : httpClientBusy c = false := by simp [httpClientBusy, hfree]
  obtain ⟨ca, wa, heq, hret⟩ :=
    requestLoop_fail_run req [(Attempt.resp final, true)] fails c w h5
  have hne : ¬final.code / 100 = 5 := by rw [h2]; decide
  have hatt := requestAttempt_resp_ok ca wa req final hne
  have hok := requestLoop_ok_step req ca (sessionOpen ca wa).1 wa
    { (sessionOpen ca wa).2 with
      trace := (sessionOpen ca wa).2.trace ++ httpClientWrite req }
    (Attempt.resp final) final [] true hatt
  have hloop : requestLoop req c w
      ((fails.map fun r => (Attempt.resp r, true)) ++ [(Attempt.resp final, true)])
      = ReqOutcome.ok (sessionOpen ca wa).1
          { (sessionOpen ca wa).2 with
            trace := (sessionOpen ca wa).2.trace ++ httpClientWrite req } final :=
    heq.trans hok
  refine ⟨(if final.busy
            then { (sessionOpen ca wa).1 with response := some final, callbackSet := true }
            else (sessionOpen ca wa).1),
          { (sessionOpen ca wa).2 with
            trace := (sessionOpen ca wa).2.trace ++ httpClientWrite req,
            stat := { (sessionOpen ca wa).2.stat with
                      request := (sessionOpen ca wa).2.stat.request + 1 } }, ?_, ?_⟩
  · simp only [httpClientRequest, hb, Bool.false_eq_true, if_false, hloop]
  · have h1 : (sessionOpen ca wa).2.stat.retry = wa.stat.retry := sessionOpen_stat_retry ca wa
    simp only []
    omega

theorem c1_witness :
    exClient.response = none
    ∧ (∀ r ∈ [({ code := 503, reason := "Service Unavailable", busy := false } : HttpResponse)],
        r.code / 100 = 5)
    ∧ ({ code := 200, reason := "OK", busy := false } : HttpResponse).code / 100 = 2
    ∧ ∃ c2 w2,
        httpClientRequest exClient initialWorld exReq
            (([({ code := 503, reason := "Service Unavailable", busy := false } :
                HttpResponse)].map fun r => (Attempt.resp r, true))
              ++ [(Attempt.resp { code := 200, reason := "OK", busy := false }, true)])
          = ReqOutcome.ok c2 w2 { code := 200, reason := "OK", busy := false }
        ∧ w2.stat.retry = initialWorld.stat.retry
            + [({ code := 503, reason := "Service Unavailable", busy := false } :
                HttpResponse)].length :=
  ⟨rfl, by decide, by decide,
    c1_retry_then_success exClient initialWorld exReq
      [{ code := 503, reason := "Service Unavailable", busy := false }]
      { code := 200, reason := "OK", busy := false } rfl (by decide) (by decide)⟩

/-- C2: when every attempt yields a 5xx response (any codes of the class,
none special-cased) and the wait gate expires after the last failure,
httpClientRequest propagates the ServiceError built from the last attempt
unchanged and never returns a response. -/
theorem c2_all_5xx_rethrow (c : HttpClient) (w : World) (req : HttpRequest)
    (fails : List HttpResponse) (last : HttpResponse)
    (hfree : c.response = none)
    (h5 : ∀ r ∈ fails, r.code / 100 = 5)
    (hl : last.code / 100 = 5) :
    ∃ c2 w2,
      httpClientRequest c w req
          ((fails.map fun r => (Attempt.resp r, true)) ++ [(Attempt.resp last, false)])
        = ReqOutcome.err c2 w2 (serviceError last.code last.reason)
      ∧ ∀ c3 w3 r2,
          httpClientRequest c w req
              ((fails.map fun r => (Attempt.resp r, true)) ++ [(Attempt.resp last, false)])
            ≠ ReqOutcome.ok c3 w3 r2 := by
  have hb : httpClientBusy c = false := by simp [httpClientBusy, hfree]
  obtain ⟨ca, wa, heq, hret⟩ :=
    requestLoop_fail_run req [(Attempt.resp last, false)] fails c w h5
  have hatt := requestAttempt_resp5 ca wa req last hl
  have herr := requestLoop_error_last req ca (sessionOpen ca wa).1 wa
    { (sessionOpen ca wa).2 with
      trace := (sessionOpen ca wa).2.trace ++ httpClientWrite req }
    (Attempt.resp last) (serviceError last.code last.reason) [] hatt
  have hloop := heq.trans herr
  refine ⟨(httpClientDoneRun (sessionOpen ca wa).1
            { (sessionOpen ca wa).2 with
              trace := (sessionOpen ca wa).2.trace ++ httpClientWrite req } true false).1,
          (httpClientDoneRun (sessionOpen ca wa).1
            { (sessionOpen ca wa).2 with
              trace := (sessionOpen ca wa).2.trace ++ httpClientWrite req } true false).2,
          ?_, ?_⟩
  · simp only [httpClientRequest, hb, Bool.false_eq_true, if_false, hloop]
  · intro c3 w3 r2 hcontra
    simp only [httpClientRequest, hb, Bool.false_eq_true, if_false, hloop] at hcontra
    exact ReqOutcome.noConfusion hcontra

theorem c2_witness :
    exClient.response = none
    ∧ (∀ r ∈ [({ code := 500, reason := "Internal Server Error", busy := false } : HttpResponse)],
        r.code / 100 = 5)
    ∧ ({ code := 503, reason := "Service Unavailable", busy := false } : HttpResponse).code / 100
        = 5
    ∧ ∃ c2 w2,
        httpClientRequest exClient initialWorld exReq
            (([({ code := 500, reason := "Internal Server Error", busy := false } :
                HttpResponse)].map fun r => (Attempt.resp r, true))
              ++ [(Attempt.resp { code := 503, reason := "Service Unavailable", busy := false },
                   false)])
          = ReqOutcome.err c2 w2 (serviceError 503 "Service Unavailable")
        ∧ ∀ c3 w3 r2,
            httpClientRequest exClient initialWorld exReq
                (([({ code := 500, reason := "Internal Server Error", busy := false } :
                    HttpResponse)].map fun r => (Attempt.resp r, true))
                  ++ [(Attempt.resp
                        { code := 503, reason := "Service Unavailable", busy := false }, false)])
              ≠ ReqOutcome.ok c3 w3 r2 :=
  ⟨rfl, by decide, by decide,
    c2_all_5xx_rethrow exClient initialWorld exReq
      [{ code := 500, reason := "Internal Server Error", busy := false }]
      { code := 503, reason := "Service Unavailable", busy := false } rfl (by decide) (by decide)⟩

theorem requestAttempt_client_response (c : HttpClient) (w : World) (req : HttpRequest)
    (a : Attempt) : (requestAttempt c w req a).1.response = c.response := by
  cases a with
  | openFail e => rfl
  | readFail e => simp [requestAttempt, sessionOpen_response]
  | resp r =>
      by_cases h : r.code / 100 = 5 <;> simp [requestAttempt, h, sessionOpen_response]

theorem requestAttempt_client_callbackSet (c : HttpClient) (w : World) (req : HttpRequest)
    (a : Attempt) : (requestAttempt c w req a).1.callbackSet = c.callbackSet := by
  cases a with
  | openFail e => rfl
  | readFail e => simp [requestAttempt, sessionOpen_callbackSet]
  | resp r =>
      by_cases h : r.code / 100 = 5 <;> simp [requestAttempt, h, sessionOpen_callbackSet]

theorem requestLoop_ok_inv (req : HttpRequest) (script : List (Attempt × Bool)) :
    ∀ (c : HttpClient) (w : World) (c1 : HttpClient) (w1 : World) (r : HttpResponse),
      c.response = none → c.callbackSet = false →
      requestLoop req c w script = ReqOutcome.ok c1 w1 r →
      c1.response = none ∧ c1.callbackSet = false := by
  induction script with
  | nil =>
      intro c w c1 w1 r _ _ h
      simp [requestLoop] at h
  | cons head rest ih =>
      obtain ⟨a, more⟩ := head
      intro c w c1 w1 r hresp hcb h
      have hres := requestAttempt_client_response c w req a
      have hcbs := requestAttempt_client_callbackSet c w req a
      rcases hra : requestAttempt c w req a with ⟨ca, wa, res⟩
      rw [hra] at hres hcbs
      simp only at hres hcbs
      cases res with
      | ok r2 =>
          simp only [requestLoop, hra] at h
          injection h with h1 h2 h3
          subst h1
          exact ⟨hres.trans hresp, hcbs.trans hcb⟩
      | error e =>
          cases hmore : more with
          | true =>
              simp only [requestLoop, hra, hmore, if_true] at h
              exact ih _ _ c1 w1 r (doneRun_response ca wa true false)
                (doneRun_callbackSet ca wa true false) h
          | false =>
              simp only [requestLoop, hra, hmore, Bool.false_eq_true, if_false] at h
              exact ReqOutcome.noConfusion h

/-- C7: after a successful httpClientRequest, the client holds the
back-reference to the returned response with the teardown callback registered
exactly when the response is busy; httpClientBusy returns exactly whether
that reference is held; and after a non-busy response the client holds no
reference, leaving it free for the next request. -/
theorem c7_busy_backref (c : HttpClient) (w : World) (req : HttpRequest)
    (script : List (Attempt × Bool)) (c1 : HttpClient) (w1 : World) (r : HttpResponse)
    (hcb : c.callbackSet = false)
    (h : httpClientRequest c w req script = ReqOutcome.ok c1 w1 r) :
    ((c1.response = some r ∧ c1.callbackSet = true) ↔ r.busy = true)
    ∧ httpClientBusy c1 = c1.response.isSome
    ∧ (r.busy = false → c1.response = none ∧ httpClientBusy c1 = false) := by
  cases hb : httpClientBusy c with
  | true => simp [httpClientRequest, hb] at h
  | false =>
      have hrespnone : c.response = none := by
        cases hcres : c.response with
        | none => rfl
        | some x => simp [httpClientBusy, hcres] at hb
      rcases hloop : requestLoop req c w script with _ | _ | ⟨ca, wa, ra⟩ | ⟨ca, wa, ea⟩ <;>
        simp only [httpClientRequest, hb, Bool.false_eq_true, if_false, hloop] at h
      · exact ReqOutcome.noConfusion h
      · exact ReqOutcome.noConfusion h
      · obtain ⟨hcanone, hcacb⟩ :=
          requestLoop_ok_inv req script c w ca wa ra hrespnone hcb hloop
        injection h with h1 h2 h3
        subst h3
        subst h1
        cases hbusy : ra.busy with
        | true =>
            refine ⟨?_, ?_, ?_⟩
            · simp [hbusy]
            · simp [httpClientBusy]
            · intro hf
              exact Bool.noConfusion hf
        | false =>
            refine ⟨?_, ?_, ?_⟩
            · simp [hbusy, hcanone]
            · simp [httpClientBusy]
            · intro _
              refine ⟨by simp [hbusy, hcanone], by simp [httpClientBusy, hbusy, hcanone]⟩
      · exact ReqOutcome.noConfusion h

/-- Response returned in the C7 witness run. -/
def exRespBusy : HttpResponse := { code := 200, reason := "OK", busy := true }

/-- Client state after the C7 witness run. -/
def exClientAfter : HttpClient :=
  { exClient with tlsSession := some 0, response := some exRespBusy, callbackSet := true }

/-- World state after the C7 witness run. -/
def exWorldAfter : World :=
  { stat := { session := 1, request := 1 }, nextSession := 1, freed := [],
    trace := httpClientWrite exReq }

theorem c7_witness :
    exClient.callbackSet = false
    ∧ (((exClientAfter.response = some exRespBusy ∧ exClientAfter.callbackSet = true)
          ↔ exRespBusy.busy = true)
       ∧ httpClientBusy exClientAfter = exClientAfter.response.isSome
       ∧ (exRespBusy.busy = false → exClientAfter.response = none
            ∧ httpClientBusy exClientAfter = false)) :=
  ⟨rfl, c7_busy_backref exClient initialWorld exReq [(Attempt.resp exRespBusy, true)]
    exClientAfter exWorldAfter exRespBusy rfl rfl⟩

/-- C8: the statistics snapshot is absent exactly when no client has ever
been constructed (objects counter zero); and from the fresh world,
constructing one client and completing one successful request with zero
retries yields a present snapshot with objects 1, sessions at least 1,
requests 1 and retries 0. -/
theorem c8_stat_snapshot :
    (∀ st, httpClientStatStr st = none ↔ st.object = 0)
    ∧ (∀ host port timeout vp cf cp (req : HttpRequest) (r : HttpResponse) (more : Bool)
        (c : HttpClient) (w1 : World),
        r.code / 100 = 2 →
        httpClientNew (some host) port timeout vp cf cp initialWorld = NewOutcome.ok c w1 →
        ∃ c2 w2,
          httpClientRequest c w1 req [(Attempt.resp r, more)] = ReqOutcome.ok c2 w2 r
          ∧ w2.stat.object = 1 ∧ 1 ≤ w2.stat.session ∧ w2.stat.request = 1
          ∧ w2.stat.retry = 0 ∧ httpClientStatStr w2.stat ≠ none) := by
  constructor
  · intro st
    by_cases h : st.object > 0 <;> simp [httpClientStatStr, h] <;> omega
  · intro host port timeout vp cf cp req r more c w1 h2 hnew
    simp only [httpClientNew] at hnew
    injection hnew with hc hw
    subst hc
    subst hw
    have hne : ¬r.code / 100 = 5 := by rw [h2]; decide
    have hatt := requestAttempt_resp_ok
      { host := some host, port := port, timeout := timeout, verifyPeer := vp,
        caFile := cf, caPath := cp, tlsSession := none, response := none,
        callbackSet := false }
      { initialWorld with
        stat := { initialWorld.stat with object := initialWorld.stat.object + 1 } }
      req r hne
    have hok := requestLoop_ok_step req
      { host := some host, port := port, timeout := timeout, verifyPeer := vp,
        caFile := cf, caPath := cp, tlsSession := none, response := none,
        callbackSet := false }
      ((sessionOpen
          { host := some host, port := port, timeout := timeout, verifyPeer := vp,
            caFile := cf, caPath := cp, tlsSession := none, response := none,
            callbackSet := false }
          { initialWorld with
            stat := { initialWorld.stat with object := initialWorld.stat.object + 1 } }).1)
      { initialWorld with
        stat := { initialWorld.stat with object := initialWorld.stat.object + 1 } }
      ({ (sessionOpen
            { host := some host, port := port, timeout := timeout, verifyPeer := vp,
              caFile := cf, caPath := cp, tlsSession := none, response := none,
              callbackSet := false }
            { initialWorld with
              stat := { initialWorld.stat with
                        object := initialWorld.stat.object + 1 } }).2 with
         trace := (sessionOpen
            { host := some host, port := port, timeout := timeout, verifyPeer := vp,
              caFile := cf, caPath := cp, tlsSession := none, response := none,
              callbackSet := false }
            { initialWorld with
              stat := { initialWorld.stat with
                        object := initialWorld.stat.object + 1 } }).2.trace
           ++ httpClientWrite req })
      (Attempt.resp r) r [] more hatt
    have hreq : httpClientRequest
        { host := some host, port := port, timeout := timeout, verifyPeer := vp,
          caFile := cf, caPath := cp, tlsSession := none, response := none,
          callbackSet := false }
        { initialWorld with
          stat := { initialWorld.stat with object := initialWorld.stat.object + 1 } }
        req [(Attempt.resp r, more)]
        = ReqOutcome.ok
            (if r.busy
              then { host := some host, port := port, timeout := timeout, verifyPeer := vp,
                     caFile := cf, caPath := cp, tlsSession := some 0,
                     response := some r, callbackSet := true }
              else { host := some host, port := port, timeout := timeout, verifyPeer := vp,
                     caFile := cf, caPath := cp, tlsSession := some 0, response := none,
                     callbackSet := false })
            { stat := { object := 1, session := 1, request := 1, retry := 0, close := 0 },
              nextSession := 1, freed := [], trace := "" ++ httpClientWrite req } r := by
      simp only [httpClientRequest, hok]
      rfl
    refine ⟨(if r.busy
              then { host := some host, port := port, timeout := timeout, verifyPeer := vp,
                     caFile := cf, caPath := cp, tlsSession := some 0,
                     response := some r, callbackSet := true }
              else { host := some host, port := port, timeout := timeout, verifyPeer := vp,
                     caFile := cf, caPath := cp, tlsSession := some 0, response := none,
                     callbackSet := false }),
            { stat := { object := 1, session := 1, request := 1, retry := 0, close := 0 },
              nextSession := 1, freed := [], trace := "" ++ httpClientWrite req },
            hreq, rfl, Nat.le_refl 1, rfl, rfl, fun h => Option.noConfusion h⟩

theorem c8_witness :
    ({ code := 200, reason := "OK", busy := false } : HttpResponse).code / 100 = 2
    ∧ httpClientNew (some "example.com") 443 5000 true none none initialWorld
        = NewOutcome.ok exClient { stat := { object := 1 } }
    ∧ ∃ c2 w2,
        httpClientRequest exClient { stat := { object := 1 } } exReq
            [(Attempt.resp { code := 200, reason := "OK", busy := false }, true)]
          = ReqOutcome.ok c2 w2 { code := 200, reason := "OK", busy := false }
        ∧ w2.stat.object = 1 ∧ 1 ≤ w2.stat.session ∧ w2.stat.request = 1
        ∧ w2.stat.retry = 0 ∧ httpClientStatStr w2.stat ≠ none :=
  ⟨by decide, rfl,
    c8_stat_snapshot.2 "example.com" 443 5000 true none none exReq
      { code := 200, reason := "OK", busy := false } true exClient
      { stat := { object := 1 } } (by decide) rfl⟩

/-- C9 counterexample: an empty but provided (non-NULL) host is accepted by
httpClientNew, whose only contract is `ASSERT(host != NULL)`: construction
with the empty host proceeds and is not an assertion failure, contradicting
the claim that an empty host is rejected as a contract violation. -/
theorem c9_counterexample :
    httpClientNew (some "") 443 5000 true none none initialWorld
      = NewOutcome.ok
          { host := some "", port := 443, timeout := 5000, verifyPeer := true,
            caFile := none, caPath := none, tlsSession := none, response := none,
            callbackSet := false }
          { stat := { object := 1 } }
    ∧ httpClientNew (some "") 443 5000 true none none initialWorld
        ≠ NewOutcome.assertFail :=
  ⟨rfl, fun h => NewOutcome.noConfusion h⟩

/-- C9 (amended): httpClientNew rejects an absent (NULL) host as a contract
violation; any provided host (the empty string included) is accepted,
returning a client with no active TLS session and no current response, and
the world changes only by incrementing the objects-created statistic — no
session is opened and nothing is written, so construction performs no
network I/O. -/
theorem c9_new_contract :
    (∀ port timeout vp cf cp w,
        httpClientNew none port timeout vp cf cp w = NewOutcome.assertFail)
    ∧ (∀ h port timeout vp cf cp w,
        httpClientNew (some h) port timeout vp cf cp w
          = NewOutcome.ok
              { host := some h, port := port, timeout := timeout, verifyPeer := vp,
                caFile := cf, caPath := cp, tlsSession := none, response := none,
                callbackSet := false }
              { w with stat := { w.stat with object := w.stat.object + 1 } }) :=
  ⟨fun _ _ _ _ _ _ => rfl, fun _ _ _ _ _ _ _ => rfl⟩

theorem join_nil_eq : String.join [] = "" := rfl

theorem headerLines_eq (hdr : List (String × String))
    (hnd : (hdr.map Prod.fst).Nodup) :
    (httpHeaderList hdr).map (fun key =>
        key ++ ":" ++ ((httpHeaderGet hdr key).getD "") ++ "\r" ++ "\n")
      = hdr.map fun kv => kv.1 ++ ":" ++ kv.2 ++ "\r" ++ "\n" := by
  induction hdr with
  | nil => rfl
  | cons kv t ih =>
      rw [List.map_cons, List.nodup_cons] at hnd
      obtain ⟨hnotin, hndt⟩ := hnd
      have hhead : httpHeaderGet (kv :: t) kv.1 = some kv.2 := by
        simp [httpHeaderGet]
      have htail : ∀ key ∈ httpHeaderList t,
          (fun key => key ++ ":" ++ ((httpHeaderGet (kv :: t) key).getD "") ++ "\r" ++ "\n")
              key
            = (fun key => key ++ ":" ++ ((httpHeaderGet t key).getD "") ++ "\r" ++ "\n")
              key := by
        intro key hkey
        have hne : ¬((kv.1 == key) = true) := by
          simp only [beq_iff_eq]
          intro hEq
          rw [hEq] at hnotin
          exact hnotin hkey
        have hfind := @List.find?_cons_of_neg (String × String) (fun x => x.1 == key)
          kv t hne
        simp only [httpHeaderGet, hfind]
      have hstep : httpHeaderList (kv :: t) = kv.1 :: httpHeaderList t := rfl
      rw [hstep, List.map_cons, List.map_cons, List.map_congr_left htail, ih hndt]
      simp [hhead]

/-- C6: the bytes httpClientRequest writes to the session before reading the
response are exactly the request line (with `?query` only for a non-empty
query), the `Key:Value\r` header lines in map iteration order, the blank
terminator line, and the body when present — equal to the spec's wire format
for header maps with distinct keys; and every response-producing attempt
appends exactly these bytes to the session trace before the response is
read. -/
theorem c6_wire_format (req : HttpRequest)
    (hnd : ((req.header.getD []).map Prod.fst).Nodup) :
    httpClientWrite req = wireFormatSpec req
    ∧ ∀ (c : HttpClient) (w : World) (r : HttpResponse),
        (requestAttempt c w req (Attempt.resp r)).2.1.trace
          = w.trace ++ httpClientWrite req := by
  constructor
  · obtain ⟨verb, uri, query, header, content⟩ := req
    cases header with
    | none =>
        cases content <;> by_cases hq : query.isEmpty <;>
          simp [httpClientWrite, wireFormatSpec, httpQueryRender, hq, httpHeaderList,
            join_nil_eq, String.append_assoc]
    | some hdr =>
        simp only [Option.getD_some] at hnd
        have hl := headerLines_eq hdr hnd
        cases content <;> by_cases hq : query.isEmpty <;>
          (simp [httpClientWrite, wireFormatSpec, httpQueryRender, hq, hl] <;>
            simp [String.append_assoc])
  · intro c w r
    by_cases h5 : r.code / 100 = 5 <;> cases hs : c.tlsSession <;>
      simp [requestAttempt, sessionOpen, hs, h5]

theorem c6_witness :
    ((exReq.header.getD []).map Prod.fst).Nodup
    ∧ (httpClientWrite exReq = wireFormatSpec exReq
       ∧ ∀ (c : HttpClient) (w : World) (r : HttpResponse),
           (requestAttempt c w exReq (Attempt.resp r)).2.1.trace
             = w.trace ++ httpClientWrite exReq) :=
  ⟨by decide, c6_wire_format exReq (by decide)⟩
